import Mathlib

/-!
Verification of the search core of the Ethereal chess engine
(`src/search.c`), via a shallow embedding of its pure score arithmetic and
of the control skeletons of `search`, `qsearch`, `staticExchangeEvaluation`,
`bestTacticalMoveValue` and `moveIsSingular`.  External collaborators
(board make/unmake, move generation, the move picker, attack tables,
static evaluation, history tables, time management) are modelled as
oracles: per-node and per-move data supplied in environment structures,
universally quantified in the theorems.
-/

/-- Modelled from the spec: the score constants of `types.h` and `search.h`
are not part of the provided sources.  `MATE` is the maximal finite score
magnitude and `MAX_PLY` the maximal search height (typically 128). -/
def MATE : ℤ := 32000

/-- Modelled from the spec: maximal search height. -/
def MAX_PLY : ℤ := 128

/-- Scores at or above this magnitude denote a forced mate;
`MATE_IN_MAX = MATE - MAX_PLY`. -/
def MATE_IN_MAX : ℤ := MATE - MAX_PLY

/-- The mirrored losing-mate threshold, `MATED_IN_MAX = -MATE + MAX_PLY`. -/
def MATED_IN_MAX : ℤ := -MATE + MAX_PLY

/-- Embedding of `valueFromTT` (src/search.c lines 754-758): rebase a stored
mate score back to be relative to the probing node's height. -/
def valueFromTT (value height : ℤ) : ℤ :=
  if value ≥ MATE_IN_MAX then value - height
  else if value ≤ MATED_IN_MAX then value + height
  else value

/-- Embedding of `valueToTT` (src/search.c lines 760-764): shift a mate score
into the height-independent form stored in the transposition table. -/
def valueToTT (value height : ℤ) : ℤ :=
  if value ≥ MATE_IN_MAX then value + height
  else if value ≤ MATED_IN_MAX then value - height
  else value

/-- Transposition-table bounds.  The table's contract (transposition.h is
not part of the provided sources) encodes `BOUND_EXACT` as
`BOUND_LOWER | BOUND_UPPER`, which the flag tests below reflect; `NONE`
models the `BOUND_NONE` initial value of the local `ttBound` variable. -/
inductive Bound where
  | NONE
  | LOWER
  | UPPER
  | EXACT
deriving DecidableEq

/-- Flag test `ttBound & BOUND_LOWER`: true for `LOWER` and `EXACT`. -/
def Bound.hasLower : Bound → Bool
  | .LOWER => true
  | .EXACT => true
  | _ => false

/-- Flag test `ttBound & BOUND_UPPER`: true for `UPPER` and `EXACT`. -/
def Bound.hasUpper : Bound → Bool
  | .UPPER => true
  | .EXACT => true
  | _ => false

/-- Data yielded by a successful `getTTEntry` probe.  The `eval` field is
`none` when the entry's static eval is `VALUE_NONE`. -/
structure TTData where
  move : ℕ
  value : ℤ
  eval : Option ℤ
  depth : ℤ
  bound : Bound
deriving DecidableEq

/-- The stored move of the probe, `NONE_MOVE = 0` when there was no hit. -/
def ttMoveOf : Option TTData → ℕ
  | some t => t.move
  | none => 0

/-- The probe's score rebased by `valueFromTT`, 0 when there was no hit
(matching the initialisation of the local `ttValue`). -/
def ttValueOf (o : Option TTData) (height : ℤ) : ℤ :=
  match o with
  | some t => valueFromTT t.value height
  | none => 0

/-- The probe's stored draft, 0 when there was no hit. -/
def ttDepthOf : Option TTData → ℤ
  | some t => t.depth
  | none => 0

/-- The probe's bound, `NONE` when there was no hit. -/
def ttBoundOf : Option TTData → Bound
  | some t => t.bound
  | none => .NONE

/-- The static eval reused from the table when present, else the board
evaluation (`ttHit && ttEval != VALUE_NONE ? ttEval : evaluateBoard`). -/
def evalOf (o : Option TTData) (fallback : ℤ) : ℤ :=
  match o with
  | some t => t.eval.getD fallback
  | none => fallback

/-- Search tunables from `search.h` (not part of the provided sources).
They are kept fully abstract: every theorem below is quantified over an
arbitrary parameter record, so no numeric choice is baked in.  Array
parameters indexed by `improving` become functions of a Bool, and the
late-move-pruning count table is additionally indexed by depth. -/
structure Params where
  RazorDepth : ℤ
  RazorMargin : ℤ
  BetaPruningDepth : ℤ
  BetaMargin : ℤ
  NullMovePruningDepth : ℤ
  ProbCutDepth : ℤ
  ProbCutMargin : ℤ
  FutilityMargin : ℤ
  FutilityPruningDepth : ℤ
  FutilityPruningHistoryLimit : Bool → ℤ
  LateMovePruningDepth : ℤ
  LateMovePruningCounts : Bool → ℤ → ℤ
  CounterMovePruningDepth : Bool → ℤ
  CounterMoveHistoryLimit : Bool → ℤ
  FollowUpMovePruningDepth : Bool → ℤ
  FollowUpMoveHistoryLimit : Bool → ℤ
  SEEPruningDepth : ℤ
  SEENoisyMargin : ℤ
  SEEQuietMargin : ℤ
  QFutilityMargin : ℤ
  QSEEMargin : ℤ

/-- One entry written by `storeTTEntry`; `eval = none` encodes `VALUE_NONE`. -/
structure StoreEntry where
  move : ℕ
  value : ℤ
  eval : Option ℤ
  depth : ℤ
  bound : Bound
deriving DecidableEq

/-- The observable outcome of a `search`/`qsearch` call that returns
normally: the score, the PV written to the caller's buffer, and the
transposition-table entry stored on that return path (if any). -/
structure SOut where
  value : ℤ
  pv : List ℕ
  store : Option StoreEntry
deriving DecidableEq

/-- Result of `tablebasesProbeWDL`. -/
inductive TBRes where
  | LOSS
  | WIN
  | DRAW
  | FAILED
deriving DecidableEq

/-- WDL-to-score conversion (src/search.c lines 275-276). -/
def tbValueOf (tb : TBRes) (height : ℤ) : ℤ :=
  match tb with
  | .LOSS => -MATE + MAX_PLY + height + 1
  | .WIN => MATE - MAX_PLY - height - 1
  | _ => 0

/-- WDL-to-bound conversion (src/search.c lines 281-282). -/
def tbBoundOf : TBRes → Bound
  | .LOSS => .UPPER
  | .WIN => .LOWER
  | .DRAW => .EXACT
  | .FAILED => .NONE

/-- The cutoff test shared by the TT and TB blocks: exact, or a lower bound
at or above beta, or an upper bound at or below alpha. -/
def boundCut (b : Bound) (v alpha beta : ℤ) : Bool :=
  decide (b = .EXACT ∨ (b = .LOWER ∧ v ≥ beta) ∨ (b = .UPPER ∧ v ≤ alpha))

/-- The TT cutoff condition of `search` (src/search.c lines 256-262): only
with sufficient stored draft, and never inside a PV node unless the node
would otherwise drop into qsearch. -/
def ttCutCond (o : Option TTData) (PvNode : Bool) (alpha beta depth height : ℤ) : Bool :=
  match o with
  | none => false
  | some t =>
      decide (t.depth ≥ depth) && (decide (depth = 0) || !PvNode) &&
        boundCut t.bound (valueFromTT t.value height) alpha beta

/-- The TB cutoff condition of `search` (src/search.c lines 285-287). -/
def tbCutCond (tb : TBRes) (alpha beta height : ℤ) : Bool :=
  decide (tb ≠ .FAILED) && boundCut (tbBoundOf tb) (tbValueOf tb height) alpha beta

/-- The TT cutoff condition of `qsearch` (src/search.c lines 589-592),
which has no draft requirement. -/
def qttCut (o : Option TTData) (alpha beta height : ℤ) : Bool :=
  match o with
  | none => false
  | some t => boundCut t.bound (valueFromTT t.value height) alpha beta

/-- One tactical move yielded by the noisy move picker inside `qsearch`.
`child` is the oracle for the recursive `qsearch` call after applying the
move: given the child's window `(-beta, -alpha)` it returns the child's
score and PV. -/
structure QMove where
  move : ℕ
  legal : Bool
  child : ℤ → ℤ → ℤ × List ℕ

/-- Per-node oracle data for one `qsearch` call: the abort predicate of
step 1, the draw test, the static evaluation, the TT probe, and
`bestTacticalMoveValue(board)` together with the picker's move stream. -/
structure QEnv where
  abort : Bool
  drawn : Bool
  evalBoard : ℤ
  tt : Option TTData
  bestTactical : ℤ
  qmoves : List QMove

/-- Loop state of the `qsearch` move loop. -/
structure QLoopState where
  best : ℤ
  alpha : ℤ
  pv : List ℕ

/-- Embedding of the `qsearch` move loop (src/search.c lines 613-643). -/
def qsearchLoop (beta : ℤ) : List QMove → QLoopState → QLoopState
  | [], s => s
  | m :: rest, s =>
      if m.legal = false then qsearchLoop beta rest s
      else
        let c := m.child (-beta) (-s.alpha)
        let v := -c.1
        let s1 :=
          if v > s.best then
            if v > s.alpha then { best := v, alpha := v, pv := m.move :: c.2 }
            else { s with best := v }
          else s
        if s1.alpha ≥ beta then s1
        else qsearchLoop beta rest s1

/-- Embedding of `qsearch` (src/search.c lines 550-646).  `none` models the
non-local abort exit of step 1; every normal return yields the score, the
PV written to the out-parameter, and no TT store (qsearch stores nothing). -/
def qsearch (P : Params) (E : QEnv) (alpha beta height : ℤ) : Option SOut :=
  if E.abort = true then none
  else if E.drawn = true then some ⟨0, [], none⟩
  else if height ≥ MAX_PLY then some ⟨E.evalBoard, [], none⟩
  else if qttCut E.tt alpha beta height = true then
    some ⟨ttValueOf E.tt height, [], none⟩
  else
    let eval := evalOf E.tt E.evalBoard
    let alpha1 := max alpha eval
    if alpha1 ≥ beta then some ⟨eval, [], none⟩
    else
      let margin := alpha1 - eval - P.QFutilityMargin
      if E.bestTactical < margin then some ⟨eval, [], none⟩
      else
        let s := qsearchLoop beta E.qmoves ⟨eval, alpha1, []⟩
        some ⟨s.best, s.pv, none⟩

/-- One move yielded by the main move picker of `search`.  Board- and
history-dependent data for the move are oracles: `isQuiet` is
`!moveIsTactical`, `hist`/`cmhist`/`fmhist` come from `getHistory`,
`stageGtGoodNoisy` is the picker-stage test of step 13, `see` is
`staticExchangeEvaluation(board, move, threshold)` as a function of the
threshold, `isKillerCounter` the killer/counter test of the LMR formula,
`singularOK` the verdict of `moveIsSingular`, `legal` the result of
`apply`, and `child` the recursive `search` on the position after the move
as a function of the child's `(alpha, beta, depth)`.
`pickWhenSkipQuiets` states whether the external picker still yields the
move once `skipQuiets` has been raised. -/
structure PickedMove where
  move : ℕ
  isQuiet : Bool
  hist : ℤ
  cmhist : ℤ
  fmhist : ℤ
  stageGtGoodNoisy : Bool
  see : ℤ → Bool
  isKillerCounter : Bool
  singularOK : Bool
  pickWhenSkipQuiets : Bool
  legal : Bool
  child : ℤ → ℤ → ℤ → ℤ × List ℕ

/-- One move yielded by the noisy picker of the ProbCut block. -/
structure PCMove where
  legal : Bool
  child : ℤ → ℤ → ℤ → ℤ × List ℕ

/-- Per-node oracle data for one `search` call. -/
structure SEnv where
  abort : Bool
  drawn : Bool
  kingAttackers : Bool
  evalBoard : ℤ
  evalStackPrev2 : ℤ
  tt : Option TTData
  tb : TBRes
  hasNonPawnMat : Bool
  prevNull1 : Bool
  prevNull2 : Bool
  bestTactical : ℤ
  nullChild : ℤ → ℤ → ℤ → ℤ × List ℕ
  pcMoves : List PCMove
  moves : List PickedMove
  lmr : ℤ → ℤ → ℤ
  q : QEnv

/-- Node-level context threaded through the main move loop. -/
structure Ctx where
  PvNode : Bool
  RootNode : Bool
  inCheck : Bool
  improving : Bool
  depth : ℤ
  height : ℤ
  beta : ℤ
  futilityMargin : ℤ
  seeMarginN : ℤ
  seeMarginQ : ℤ
  ttMove : ℕ
  ttDepth : ℤ
  ttBoundLower : Bool
  lmr : ℤ → ℤ → ℤ

/-- Mutable state of the main move loop of `search`.  `value` and `lpv`
model the function-scoped `value` variable and child-PV buffer; `pruned`
counts the moves skipped by steps 12C, 12D and 13. -/
structure LoopState where
  best : ℤ
  bestMove : ℕ
  alpha : ℤ
  value : ℤ
  pv : List ℕ
  lpv : List ℕ
  played : ℕ
  quiets : ℕ
  pruned : ℕ
  skipQuiets : Bool

/-- The loop state on entry to the main move loop (src/search.c lines
199-209 and 388): `best = -MATE`, no best move, the caller's alpha, and
the `value` variable as left by the NMP/ProbCut blocks. -/
def initLoopState (alpha value0 : ℤ) : LoopState :=
  { best := -MATE, bestMove := 0, alpha := alpha, value := value0,
    pv := [], lpv := [], played := 0, quiets := 0, pruned := 0,
    skipQuiets := false }

/-- Late-move reductions (src/search.c lines 447-468, step 14): the table
reduction adjusted for node type, improvement, killers/counters and
history, clamped to `[1, depth-1]`; 1 when the LMR conditions do not
hold.  `played1` is the `played` counter after the current move. -/
def lmrR (C : Ctx) (m : PickedMove) (played1 : ℕ) : ℤ :=
  if m.isQuiet = true ∧ C.depth > 2 ∧ played1 > 1 then
    let r0 := C.lmr (min C.depth 63) (min (played1 : ℤ) 63)
              + (if C.PvNode then 0 else 1)
              + (if C.improving then 0 else 1)
              - (if m.isKillerCounter then 1 else 0)
              - max (-2) (min 2 (Int.tdiv (m.hist + m.cmhist + m.fmhist) 5000))
    min (C.depth - 1) (max r0 1)
  else 1

/-- Steps 14-16 of the move loop (src/search.c lines 445-505): the LMR
reduction, the singular test and extensions, and the three-stage research
ladder, producing the final `value` for the move together with the child
PV buffer. -/
def researchLadder (C : Ctx) (m : PickedMove) (s : LoopState) : ℤ × List ℕ :=
  let played1 := s.played + 1
  let quiets1 := if m.isQuiet then s.quiets + 1 else s.quiets
  let R := lmrR C m played1
  let singularB : Bool :=
    !C.RootNode && decide (C.depth ≥ 8) && decide (m.move = C.ttMove) &&
      decide (C.ttDepth ≥ C.depth - 2) && C.ttBoundLower
  let extensionB : Bool :=
    C.inCheck ||
      (m.isQuiet && decide (quiets1 ≤ 4) && decide (m.cmhist ≥ 10000) &&
        decide (m.fmhist ≥ 10000)) ||
      (singularB && m.singularOK)
  let newDepth := C.depth + (if extensionB && !C.RootNode then 1 else 0)
  let p1 :=
    if R ≠ 1 then
      let c := m.child (-s.alpha - 1) (-s.alpha) (newDepth - R)
      (-c.1, c.2)
    else (s.value, s.lpv)
  let p2 :=
    if (R ≠ 1 ∧ p1.1 > s.alpha) ∨ (R = 1 ∧ ¬(C.PvNode = true ∧ played1 = 1)) then
      let c := m.child (-s.alpha - 1) (-s.alpha) (newDepth - 1)
      (-c.1, c.2)
    else p1
  if C.PvNode = true ∧ (played1 = 1 ∨ p2.1 > s.alpha) then
    let c := m.child (-C.beta) (-s.alpha) (newDepth - 1)
    (-c.1, c.2)
  else p2

/-- Embedding of the main move loop of `search` (src/search.c lines
389-529): quiet-move pruning (12A-12D), SEE pruning (13), legality,
the research ladder of steps 14-16, and the best/alpha/PV update with
beta cutoff (17). -/
def searchLoop (P : Params) (C : Ctx) : List PickedMove → LoopState → LoopState
  | [], s => s
  | m :: rest, s =>
      if s.skipQuiets = true ∧ m.pickWhenSkipQuiets = false then
        searchLoop P C rest s
      else
        let quiets1 := if m.isQuiet then s.quiets + 1 else s.quiets
        let sq1 :=
          if m.isQuiet = true ∧ s.best > MATED_IN_MAX ∧
             C.futilityMargin ≤ s.alpha ∧ C.depth ≤ P.FutilityPruningDepth ∧
             m.hist + m.cmhist + m.fmhist < P.FutilityPruningHistoryLimit C.improving
          then true else s.skipQuiets
        let sq2 :=
          if m.isQuiet = true ∧ s.best > MATED_IN_MAX ∧
             C.depth ≤ P.LateMovePruningDepth ∧
             (quiets1 : ℤ) ≥ P.LateMovePruningCounts C.improving C.depth
          then true else sq1
        if m.isQuiet = true ∧ s.best > MATED_IN_MAX ∧
           C.depth ≤ P.CounterMovePruningDepth C.improving ∧
           m.cmhist < P.CounterMoveHistoryLimit C.improving then
          searchLoop P C rest
            { s with quiets := quiets1, skipQuiets := sq2, pruned := s.pruned + 1 }
        else if m.isQuiet = true ∧ s.best > MATED_IN_MAX ∧
           C.depth ≤ P.FollowUpMovePruningDepth C.improving ∧
           m.fmhist < P.FollowUpMoveHistoryLimit C.improving then
          searchLoop P C rest
            { s with quiets := quiets1, skipQuiets := sq2, pruned := s.pruned + 1 }
        else if s.best > MATED_IN_MAX ∧ C.depth ≤ P.SEEPruningDepth ∧
           m.stageGtGoodNoisy = true ∧
           m.see (if m.isQuiet then C.seeMarginQ else C.seeMarginN) = false then
          searchLoop P C rest
            { s with quiets := quiets1, skipQuiets := sq2, pruned := s.pruned + 1 }
        else if m.legal = false then
          searchLoop P C rest { s with quiets := quiets1, skipQuiets := sq2 }
        else
          let played1 := s.played + 1
          let p3 := researchLadder C m s
          let v := p3.1
          let base :=
            { s with quiets := quiets1, skipQuiets := sq2, played := played1,
                     value := v, lpv := p3.2 }
          if v > s.best then
            if v > s.alpha then
              let s2 := { base with best := v, bestMove := m.move, alpha := v,
                                    pv := m.move :: p3.2 }
              if v ≥ C.beta then s2 else searchLoop P C rest s2
            else searchLoop P C rest { base with best := v, bestMove := m.move }
          else searchLoop P C rest base

/-- Embedding of the ProbCut move loop (src/search.c lines 369-383):
returns the fail-high value if some legal tactical move's reduced
verification search reaches `rBeta`, and the threaded `value` variable. -/
def probCutLoop (rBeta depth : ℤ) : List PCMove → ℤ → Option ℤ × ℤ
  | [], value => (none, value)
  | m :: rest, value =>
      if m.legal = false then probCutLoop rBeta depth rest value
      else
        let v := -(m.child (-rBeta) (-rBeta + 1) (depth - 4)).1
        if v ≥ rBeta then (some v, v) else probCutLoop rBeta depth rest v

/-- Embedding of the tail of `search` after the move loop (src/search.c
lines 531-547): terminal detection when no move was played, else the TT
store with the bound classified against beta and the original alpha, and
the return of `best`. -/
def searchFinish (played : ℕ) (inCheck : Bool) (best : ℤ) (bestMove : ℕ)
    (oldAlpha beta eval depth height : ℤ) (pv : List ℕ) : SOut :=
  if played = 0 then ⟨if inCheck then -MATE + height else 0, pv, none⟩
  else
    let bound : Bound :=
      if best ≥ beta then .LOWER
      else if best > oldAlpha then .EXACT
      else .UPPER
    ⟨best, pv, some ⟨bestMove, valueToTT best height, some eval, depth, bound⟩⟩

/-- The loop context assembled by `search` in step 6 (src/search.c lines
294-315) from the node-level state; `depth` is the already clamped draft.
The `ttBoundLower` field reads the `ttBound` variable after the TB block,
which overwrites it when the probe succeeded. -/
def mkCtx (P : Params) (E : SEnv) (alpha beta depth height : ℤ) : Ctx :=
  { PvNode := decide (alpha ≠ beta - 1), RootNode := decide (height = 0),
    inCheck := E.kingAttackers,
    improving := decide (height ≥ 2) &&
      decide (evalOf E.tt E.evalBoard > E.evalStackPrev2),
    depth := depth, height := height, beta := beta,
    futilityMargin := evalOf E.tt E.evalBoard + P.FutilityMargin * depth,
    seeMarginN := P.SEENoisyMargin * depth * depth,
    seeMarginQ := P.SEEQuietMargin * depth,
    ttMove := ttMoveOf E.tt, ttDepth := ttDepthOf E.tt,
    ttBoundLower :=
      (if E.tb = TBRes.FAILED then ttBoundOf E.tt else tbBoundOf E.tb).hasLower,
    lmr := E.lmr }

/-- The main move loop followed by the tail of `search` (src/search.c
lines 388-547): run the loop from the entry state and feed its outcome to
terminal detection and the TT store. -/
def searchMain (P : Params) (C : Ctx) (ms : List PickedMove) (inCheck : Bool)
    (alpha beta eval depth height v0 : ℤ) : SOut :=
  let s := searchLoop P C ms (initLoopState alpha v0)
  searchFinish s.played inCheck s.best s.bestMove alpha beta eval depth
    height s.pv

/-- Step 10 of `search` followed by the main move loop (src/search.c
lines 357-547): ProbCut at non-PV nodes with a tactical upper bound above
`beta + ProbCutMargin`, then the loop and the final store.  `value2` is
the `value` variable as left by the preceding blocks. -/
def searchPC (P : Params) (E : SEnv) (alpha beta eval depth height value2 : ℤ) :
    Option SOut :=
  if decide (alpha ≠ beta - 1) = false ∧ depth ≥ P.ProbCutDepth ∧
     |beta| < MATE_IN_MAX ∧ eval + E.bestTactical ≥ beta + P.ProbCutMargin then
    match probCutLoop (min (beta + P.ProbCutMargin) (MATE - MAX_PLY - 1))
        depth E.pcMoves value2 with
    | (some v, _) => some ⟨v, [], none⟩
    | (none, value3) =>
        some (searchMain P (mkCtx P E alpha beta depth height) E.moves
          E.kingAttackers alpha beta eval depth height value3)
  else
    some (searchMain P (mkCtx P E alpha beta depth height) E.moves
      E.kingAttackers alpha beta eval depth height value2)

/-- Steps 6 to 9 of `search` (src/search.c lines 294-355): state
initialisation, razoring, beta pruning and null-move pruning, continuing
with `searchPC`.  The `value` variable is `-MATE` unless the TB block ran
without cutting, in which case it holds the TB score; `ttBound` is
likewise overwritten by the TB bound. -/
def searchBody (P : Params) (E : SEnv) (alpha beta depth height : ℤ) :
    Option SOut :=
  let inCheck := E.kingAttackers
  let eval := evalOf E.tt E.evalBoard
  let ttBound2 := if E.tb = TBRes.FAILED then ttBoundOf E.tt else tbBoundOf E.tb
  let value1 := if E.tb = TBRes.FAILED then -MATE else tbValueOf E.tb height
  if decide (alpha ≠ beta - 1) = false ∧ inCheck = false ∧
     depth ≤ P.RazorDepth ∧ eval + P.RazorMargin < alpha then
    qsearch P E.q alpha beta height
  else if decide (alpha ≠ beta - 1) = false ∧ inCheck = false ∧
     depth ≤ P.BetaPruningDepth ∧ eval - P.BetaMargin * depth > beta then
    some ⟨eval, [], none⟩
  else if decide (alpha ≠ beta - 1) = false ∧ inCheck = false ∧
     depth ≥ P.NullMovePruningDepth ∧ eval ≥ beta ∧ E.hasNonPawnMat = true ∧
     E.prevNull1 = false ∧ E.prevNull2 = false ∧
     (E.tt.isSome = false ∨ ttBound2.hasUpper = false ∨
       ttValueOf E.tt height ≥ beta) then
    let R := 4 + Int.tdiv depth 6 + min 3 (Int.tdiv (eval - beta) 200)
    let nv := -(E.nullChild (-beta) (-beta + 1) (depth - R)).1
    if nv ≥ beta then some ⟨beta, [], none⟩
    else searchPC P E alpha beta eval depth height nv
  else searchPC P E alpha beta eval depth height value1

/-- Embedding of `search` (src/search.c lines 192-548): qsearch drop-in,
abort, the early exits of step 3, TT and TB probes, then the body with
razoring, beta pruning, null-move pruning, ProbCut, the main move loop
and the final store.  `none` models the non-local abort exit. -/
def search (P : Params) (E : SEnv) (alpha beta depth height : ℤ) : Option SOut :=
  let PvNode : Bool := decide (alpha ≠ beta - 1)
  let RootNode : Bool := decide (height = 0)
  if depth ≤ 0 ∧ E.kingAttackers = false then qsearch P E.q alpha beta height
  else
    let depth := max 0 depth
    if E.abort = true then none
    else if RootNode = false ∧ E.drawn = true then some ⟨0, [], none⟩
    else if RootNode = false ∧ height ≥ MAX_PLY then some ⟨E.evalBoard, [], none⟩
    else if RootNode = false ∧
        max alpha (-MATE + height) ≥ min beta (MATE - height - 1) then
      some ⟨max alpha (-MATE + height), [], none⟩
    else if ttCutCond E.tt PvNode alpha beta depth height = true then
      some ⟨ttValueOf E.tt height, [], none⟩
    else if tbCutCond E.tb alpha beta height = true then
      some ⟨tbValueOf E.tb height, [],
        some ⟨0, tbValueOf E.tb height, none, MAX_PLY - 1, tbBoundOf E.tb⟩⟩
    else searchBody P E alpha beta depth height

/-- One move yielded by the move picker inside `moveIsSingular`. -/
structure SingMove where
  move : ℕ
  legal : Bool
  child : ℤ → ℤ → ℤ → ℤ × List ℕ

/-- Embedding of the exclusion loop of `moveIsSingular` (src/search.c lines
820-837): every move other than the table move is searched on a null
`rBeta` window at halved depth; the loop breaks as soon as one of them
fails high. -/
def singularLoop (ttMove : ℕ) (rBeta depth : ℤ) : List SingMove → ℤ → ℤ
  | [], value => value
  | m :: rest, value =>
      if m.move = ttMove then singularLoop ttMove rBeta depth rest value
      else if m.legal = false then singularLoop ttMove rBeta depth rest value
      else
        let v := -(m.child (-rBeta - 1) (-rBeta) (Int.tdiv depth 2 - 1)).1
        if v > rBeta then v
        else singularLoop ttMove rBeta depth rest v

/-- Embedding of `moveIsSingular` (src/search.c lines 804-844): the table
move is singular iff no alternative scored above
`rBeta = max(ttValue - depth, -MATE)`, starting from `value = -MATE`. -/
def moveIsSingular (ttMove : ℕ) (ttValue depth : ℤ) (moves : List SingMove) : Bool :=
  let rBeta := max (ttValue - depth) (-MATE)
  let value := singularLoop ttMove rBeta depth moves (-MATE)
  decide (value ≤ rBeta)

/-- Piece-type indices, as in `types.h` (modelled from the spec). -/
def PAWN : ℕ := 0

/-- Knight piece-type index. -/
def KNIGHT : ℕ := 1

/-- Bishop piece-type index. -/
def BISHOP : ℕ := 2

/-- Rook piece-type index. -/
def ROOK : ℕ := 3

/-- Queen piece-type index. -/
def QUEEN : ℕ := 4

/-- King piece-type index. -/
def KING : ℕ := 5

/-- Colours as Booleans: white is the C value 0. -/
def WHITE : Bool := false

/-- Black is the C value 1. -/
def BLACK : Bool := true

/-- Modelled from the spec: the implementer-supplied SEE piece-value table
(`SEEPieceValues`, defined outside the provided sources).  The king's
value is zero, as the SEE code itself relies on (src/search.c line 666);
indices past the king (the `EMPTY` padding entries) are zero as well. -/
def SEEPieceValues : ℕ → ℤ
  | 0 => 100
  | 1 => 450
  | 2 => 450
  | 3 => 675
  | 4 => 1300
  | _ => 0

/-- Bitboard mask of the seventh rank (squares 48-55), from `bitboards.h`
(modelled from the spec). -/
def RANK_7 : ℕ := 255 <<< 48

/-- Bitboard mask of the second rank (squares 8-15). -/
def RANK_2 : ℕ := 255 <<< 8

/-- Board model for the pure board-reading helpers: per-piece-type and
per-colour bitboards as naturals, the side to move, the square contents
as piece-type indices (6 encodes an empty square, matching
`pieceType(EMPTY)`), and the en-passant square. -/
structure Board where
  turn : Bool
  pieces : ℕ → ℕ
  colours : Bool → ℕ
  squares : ℕ → ℕ
  epSquare : ℕ

/-- The `for (piece = QUEEN; piece > PAWN; piece--)` scan with break of
`bestTacticalMoveValue` (src/search.c lines 787-792), falling back to the
initial pawn value when no target matches. -/
def btmvScan (b : Board) (targets : ℕ) : List ℕ → ℤ
  | [] => SEEPieceValues PAWN
  | p :: rest =>
      if targets &&& b.pieces p ≠ 0 then SEEPieceValues p
      else btmvScan b targets rest

/-- Embedding of `bestTacticalMoveValue` (src/search.c lines 779-802). -/
def bestTacticalMoveValue (b : Board) : ℤ :=
  let targets := b.colours (!b.turn)
  let value := btmvScan b targets [QUEEN, ROOK, BISHOP, KNIGHT]
  if b.pieces PAWN &&& b.colours b.turn &&&
      (if b.turn = WHITE then RANK_7 else RANK_2) ≠ 0 then
    value + SEEPieceValues QUEEN - SEEPieceValues PAWN
  else value

/-- The spec's reading of `bestTacticalMoveValue`: the SEE value of the
strongest enemy piece actually present on the board (scanning all piece
types from queen down to king by SEE value), plus the promotion bonus.
This follows the spec wording, to be compared with the source embedding. -/
def specBestTacticalMoveValue (b : Board) : ℤ :=
  let targets := b.colours (!b.turn)
  let strongest :=
    if targets &&& b.pieces QUEEN ≠ 0 then SEEPieceValues QUEEN
    else if targets &&& b.pieces ROOK ≠ 0 then SEEPieceValues ROOK
    else if targets &&& b.pieces BISHOP ≠ 0 then SEEPieceValues BISHOP
    else if targets &&& b.pieces KNIGHT ≠ 0 then SEEPieceValues KNIGHT
    else if targets &&& b.pieces PAWN ≠ 0 then SEEPieceValues PAWN
    else SEEPieceValues KING
  strongest +
    (if b.pieces PAWN &&& b.colours b.turn &&&
        (if b.turn = WHITE then RANK_7 else RANK_2) ≠ 0 then
      SEEPieceValues QUEEN - SEEPieceValues PAWN
    else 0)

/-- The amended reading: as the spec, except that the base value defaults
to the pawn value whenever the enemy has no piece stronger than a pawn,
even when the enemy also has no pawn (a bare king). -/
def amendedBestTacticalMoveValue (b : Board) : ℤ :=
  let targets := b.colours (!b.turn)
  let strongest :=
    if targets &&& b.pieces QUEEN ≠ 0 then SEEPieceValues QUEEN
    else if targets &&& b.pieces ROOK ≠ 0 then SEEPieceValues ROOK
    else if targets &&& b.pieces BISHOP ≠ 0 then SEEPieceValues BISHOP
    else if targets &&& b.pieces KNIGHT ≠ 0 then SEEPieceValues KNIGHT
    else SEEPieceValues PAWN
  strongest +
    (if b.pieces PAWN &&& b.colours b.turn &&&
        (if b.turn = WHITE then RANK_7 else RANK_2) ≠ 0 then
      SEEPieceValues QUEEN - SEEPieceValues PAWN
    else 0)

/-- Move-type tag for a normal move (modelled from the spec: the compact
move encoding of `move.h` is not part of the provided sources, so a move
is modelled by its decoded fields). -/
def NORMAL_MOVE : ℕ := 0

/-- Move-type tag for castling. -/
def CASTLE_MOVE : ℕ := 1

/-- Move-type tag for en passant. -/
def ENPASS_MOVE : ℕ := 2

/-- Move-type tag for promotions. -/
def PROMOTION_MOVE : ℕ := 3

/-- A decoded move: origin, destination, type tag, promotion piece type. -/
structure SeeMove where
  fromSq : ℕ
  toSq : ℕ
  type : ℕ
  promo : ℕ

/-- Attack oracles for the SEE loop: the external generators
`allAttackersToSquare`, `bishopAttacks` and `rookAttacks` (attacks.c, not
part of the provided sources), each as a function of the occupancy, with
the fixed target square baked in. -/
structure SeeEnv where
  allAtt : ℕ → ℕ
  bishopAtt : ℕ → ℕ
  rookAtt : ℕ → ℕ

/-- Embedding of `thisTacticalMoveValue` (src/search.c lines 766-777):
value of the captured piece, plus the promotion gain, plus a pawn for
en passant. -/
def thisTacticalMoveValue (b : Board) (m : SeeMove) : ℤ :=
  let v := SEEPieceValues (b.squares m.toSq)
  let v := if m.type = PROMOTION_MOVE
           then v + SEEPieceValues m.promo - SEEPieceValues PAWN else v
  if m.type = ENPASS_MOVE then v + SEEPieceValues PAWN else v

/-- The `for (nextVictim = PAWN; nextVictim <= QUEEN; ...)` scan of the
SEE loop (src/search.c lines 700-702); when no bitboard matches, the loop
falls through with `nextVictim = KING`. -/
def leastAttacker (b : Board) (atk : ℕ) : ℕ :=
  if atk &&& b.pieces PAWN ≠ 0 then PAWN
  else if atk &&& b.pieces KNIGHT ≠ 0 then KNIGHT
  else if atk &&& b.pieces BISHOP ≠ 0 then BISHOP
  else if atk &&& b.pieces ROOK ≠ 0 then ROOK
  else if atk &&& b.pieces QUEEN ≠ 0 then QUEEN
  else KING

/-- The isolated least significant bit of a bitboard:
`1ull << getlsb(n)` for nonzero `n`, and 0 for `n = 0`. -/
def lsbBit (n : ℕ) : ℕ := n &&& (n ^^^ (n - 1))

/-- One occupancy/attacker update of the SEE loop (src/search.c lines
699-716): remove the least-valuable attacker of the side to move from the
occupancy, reveal x-ray bishop/rook attackers behind it, and drop
already-used attackers. -/
def seeNextState (b : Board) (env : SeeEnv) (bishops rooks occupied attackers : ℕ)
    (colour : Bool) : ℕ × ℕ :=
  let myAttackers := attackers &&& b.colours colour
  let nextVictim := leastAttacker b myAttackers
  let occupied1 := occupied ^^^ lsbBit (myAttackers &&& b.pieces nextVictim)
  let attackers1 :=
    if nextVictim = PAWN ∨ nextVictim = BISHOP ∨ nextVictim = QUEEN
    then attackers ||| (env.bishopAtt occupied1 &&& bishops)
    else attackers
  let attackers2 :=
    if nextVictim = ROOK ∨ nextVictim = QUEEN
    then attackers1 ||| (env.rookAtt occupied1 &&& rooks)
    else attackers1
  (occupied1, attackers2 &&& occupied1)

/-- Embedding of the capture-exchange loop of `staticExchangeEvaluation`
(src/search.c lines 693-735), returning the final `colour`.  The loop is
fuelled: the C loop removes one occupied square per iteration, so any
fuel at least the number of occupied squares reproduces it; on fuel
exhaustion the current side is declared the loser, exactly as when its
attackers run out. -/
def seeLoop (b : Board) (env : SeeEnv) (bishops rooks : ℕ) :
    ℕ → ℤ → Bool → ℕ → ℕ → Bool
  | 0, _, colour, _, _ => colour
  | fuel + 1, balance, colour, occupied, attackers =>
      let myAttackers := attackers &&& b.colours colour
      if myAttackers = 0 then colour
      else
        let nextVictim := leastAttacker b myAttackers
        let st := seeNextState b env bishops rooks occupied attackers colour
        let colour1 := !colour
        let balance1 := -balance - 1 - SEEPieceValues nextVictim
        if balance1 ≥ 0 then
          if nextVictim = KING ∧ st.2 &&& b.colours colour1 ≠ 0
          then colour else colour1
        else seeLoop b env bishops rooks fuel balance1 colour1 st.1 st.2

/-- Embedding of `staticExchangeEvaluation` (src/search.c lines 648-739):
true iff the exchange sequence started by `move` gains at least
`threshold`. -/
def staticExchangeEvaluation (b : Board) (env : SeeEnv) (m : SeeMove)
    (threshold : ℤ) : Bool :=
  let nextVictim := if m.type ≠ PROMOTION_MOVE then b.squares m.fromSq else m.promo
  let balance := thisTacticalMoveValue b m - threshold
  if balance < 0 then false
  else
    let balance1 := balance - SEEPieceValues nextVictim
    if balance1 ≥ 0 then true
    else
      let bishops := b.pieces BISHOP ||| b.pieces QUEEN
      let rooks := b.pieces ROOK ||| b.pieces QUEEN
      let occupied0 := b.colours WHITE ||| b.colours BLACK
      let occupied1 := (occupied0 ^^^ (1 <<< m.fromSq)) ||| (1 <<< m.toSq)
      let occupied2 := if m.type = ENPASS_MOVE
                       then occupied1 ^^^ (1 <<< b.epSquare) else occupied1
      let attackers := env.allAtt occupied2 &&& occupied2
      let colourF := seeLoop b env bishops rooks (occupied2 + 1) balance1
        (!b.turn) occupied2 attackers
      decide (b.turn ≠ colourF)

/-- A concrete parameter record used to instantiate the quantified
theorems below on concrete runs. -/
def P0 : Params where
  RazorDepth := 2
  RazorMargin := 300
  BetaPruningDepth := 8
  BetaMargin := 85
  NullMovePruningDepth := 2
  ProbCutDepth := 5
  ProbCutMargin := 80
  FutilityMargin := 90
  FutilityPruningDepth := 8
  FutilityPruningHistoryLimit := fun _ => 12000
  LateMovePruningDepth := 8
  LateMovePruningCounts := fun _ _ => 10
  CounterMovePruningDepth := fun _ => 3
  CounterMoveHistoryLimit := fun _ => 0
  FollowUpMovePruningDepth := fun _ => 3
  FollowUpMoveHistoryLimit := fun _ => -500
  SEEPruningDepth := 9
  SEENoisyMargin := -18
  SEEQuietMargin := -80
  QFutilityMargin := 100
  QSEEMargin := 110

/-- A concrete `qsearch` environment with one legal tactical move whose
child scores -50, so the move improves alpha and produces a PV. -/
def Q0 : QEnv where
  abort := false
  drawn := false
  evalBoard := 5
  tt := none
  bestTactical := 1000
  qmoves := [{ move := 7, legal := true, child := fun _ _ => (-50, []) }]

/-- A concrete `search` environment at a non-root node with a TT hit and a
successful tablebase probe, used to exercise the mate-distance early
return independently of both probes. -/
def E3 : SEnv where
  abort := false
  drawn := false
  kingAttackers := false
  evalBoard := 0
  evalStackPrev2 := 0
  tt := some { move := 9, value := 100, eval := some 20, depth := 50, bound := .EXACT }
  tb := .WIN
  hasNonPawnMat := true
  prevNull1 := false
  prevNull2 := false
  bestTactical := 0
  nullChild := fun _ _ _ => (0, [])
  pcMoves := []
  moves := []
  lmr := fun _ _ => 0
  q := Q0

/-- A concrete loop context for instantiating move-loop theorems. -/
def C0 : Ctx where
  PvNode := true
  RootNode := false
  inCheck := true
  improving := false
  depth := 5
  height := 3
  beta := 50
  futilityMargin := 120
  seeMarginN := -450
  seeMarginQ := -400
  ttMove := 0
  ttDepth := 0
  ttBoundLower := false
  lmr := fun _ _ => 1

/-- A concrete illegal quiet move for the picker oracle. -/
def M0 : PickedMove where
  move := 11
  isQuiet := true
  hist := 0
  cmhist := 0
  fmhist := 0
  stageGtGoodNoisy := true
  see := fun _ => true
  isKillerCounter := false
  singularOK := false
  pickWhenSkipQuiets := false
  legal := false
  child := fun _ _ _ => (0, [])

/-- A board on which white is to move and black has only a bare king on
e8 (square 60); white has only a king on e1 (square 4). -/
def B7 : Board where
  turn := false
  pieces := fun p => if p = KING then (1 <<< 4) ||| (1 <<< 60) else 0
  colours := fun c => if c then 1 <<< 60 else 1 <<< 4
  squares := fun sq => if sq = 4 ∨ sq = 60 then KING else 6
  epSquare := 0

/-- A concrete non-PV environment where null-move pruning fires: static
eval 15 against beta 10, and the null-window child search returns -50, so
the negamaxed value 50 reaches beta. -/
def E5 : SEnv where
  abort := false
  drawn := false
  kingAttackers := false
  evalBoard := 15
  evalStackPrev2 := 0
  tt := none
  tb := .FAILED
  hasNonPawnMat := true
  prevNull1 := false
  prevNull2 := false
  bestTactical := 0
  nullChild := fun _ _ _ => (-50, [])
  pcMoves := []
  moves := []
  lmr := fun _ _ => 0
  q := Q0

/-- Claim C1: for all integer scores `v` and heights `h ≥ 0`,
`valueFromTT (valueToTT v h) h = v`; `valueToTT` shifts winning mates by
`+h` and losing mates by `-h`, and both helpers leave non-mate scores
unchanged. -/
theorem claim_c1 (v h : ℤ) (hh : 0 ≤ h) :
    valueFromTT (valueToTT v h) h = v ∧
    (MATE_IN_MAX ≤ v → valueToTT v h = v + h) ∧
    (v ≤ MATED_IN_MAX → valueToTT v h = v - h) ∧
    (MATED_IN_MAX < v → v < MATE_IN_MAX →
      valueToTT v h = v ∧ valueFromTT v h = v) := by
  refine ⟨?_, fun h1 => ?_, fun h1 => ?_, fun h1 h2 => ⟨?_, ?_⟩⟩ <;>
    · simp only [valueFromTT, valueToTT, MATE_IN_MAX, MATED_IN_MAX, MATE,
        MAX_PLY] at *
      split_ifs <;> omega

/-- Witness for C1 at the concrete mate score 31950 and height 7. -/
theorem claim_c1_witness :
    (0 : ℤ) ≤ 7 ∧ valueFromTT (valueToTT 31950 7) 7 = 31950 :=
  ⟨by decide, (claim_c1 31950 7 (by decide)).1⟩

/-- Claim C2: when `search` reaches its final TT-store step (`played ≠ 0`,
entry window `oldAlpha < beta`), the stored bound is LOWER iff
`best ≥ beta`, EXACT iff `oldAlpha < best < beta`, UPPER iff
`best ≤ oldAlpha`; the stored score is `valueToTT best height`, and the
node returns `best`. -/
theorem claim_c2 (played : ℕ) (inCheck : Bool) (best : ℤ) (bestMove : ℕ)
    (oldAlpha beta eval depth height : ℤ) (pv : List ℕ)
    (hp : played ≠ 0) (hw : oldAlpha < beta) :
    (searchFinish played inCheck best bestMove oldAlpha beta eval depth height
      pv).value = best ∧
    ∃ e, (searchFinish played inCheck best bestMove oldAlpha beta eval depth
        height pv).store = some e ∧
      e.move = bestMove ∧ e.value = valueToTT best height ∧
      e.eval = some eval ∧ e.depth = depth ∧
      (best ≥ beta → e.bound = .LOWER) ∧
      (oldAlpha < best ∧ best < beta → e.bound = .EXACT) ∧
      (best ≤ oldAlpha → e.bound = .UPPER) := by
  unfold searchFinish
  rw [if_neg hp]
  refine ⟨rfl, _, rfl, rfl, rfl, rfl, rfl, fun hb => ?_, fun hb => ?_,
    fun hb => ?_⟩
  · rw [if_pos hb]
  · rw [if_neg (by omega), if_pos (by omega)]
  · rw [if_neg (by omega), if_neg (by omega)]

/-- Witness for C2: a fail-low store at a concrete input. -/
theorem claim_c2_witness :
    (searchFinish 1 false 5 3 0 10 7 4 2 []).value = 5 ∧
    (1 : ℕ) ≠ 0 ∧ (0 : ℤ) < 10 :=
  ⟨(claim_c2 1 false 5 3 0 10 7 4 2 [] (by decide) (by decide)).1,
    by decide, by decide⟩

/-- Claim C3: at a non-root node that is not drawn, below the maximal
height, not dropping into qsearch and not aborted, if
`rAlpha = max(alpha, -MATE+height)` reaches
`rBeta = min(beta, MATE-height-1)` then `search` returns exactly `rAlpha`,
for every TT and TB oracle (the return precedes both probes). -/
theorem claim_c3 (P : Params) (E : SEnv) (alpha beta depth height : ℤ)
    (ha : E.abort = false) (hh : 0 < height) (hd : E.drawn = false)
    (hm : height < MAX_PLY) (hq : 0 < depth ∨ E.kingAttackers = true)
    (hmd : max alpha (-MATE + height) ≥ min beta (MATE - height - 1)) :
    search P E alpha beta depth height =
      some ⟨max alpha (-MATE + height), [], none⟩ := by
  simp only [search]
  rw [if_neg (by
    rintro ⟨h1, h2⟩
    rcases hq with h | h
    · omega
    · rw [h] at h2; exact absurd h2 (by decide))]
  rw [if_neg (by rw [ha]; decide)]
  rw [if_neg (by rintro ⟨-, h2⟩; rw [hd] at h2; exact absurd h2 (by decide))]
  rw [if_neg (by rintro ⟨-, h2⟩; omega)]
  rw [if_pos ⟨by simp [decide_eq_false (by omega : ¬height = 0)], hmd⟩]

/-- Witness for C3: mate-distance pruning fires at height 1 with window
`(31999, 32000)`, despite an exact deep TT entry and a TB win. -/
theorem claim_c3_witness :
    search P0 E3 31999 32000 3 1 = some ⟨31999, [], none⟩ ∧
    E3.abort = false ∧ E3.drawn = false ∧ (1 : ℤ) < MAX_PLY ∧
    max (31999 : ℤ) (-MATE + 1) ≥ min 32000 (MATE - 1 - 1) :=
  ⟨claim_c3 P0 E3 31999 32000 3 1 rfl (by decide) rfl (by decide)
      (Or.inl (by decide)) (by decide),
    rfl, rfl, by decide, by decide⟩

/-- When every picked move is illegal and `best` still holds its `-MATE`
initial value, the move loop of `search` changes nothing but the quiet
counter: nothing is played, nothing is pruned, and `skipQuiets` is never
raised, because every pruning step requires `best > MATED_IN_MAX`. -/
theorem searchLoop_illegal (P : Params) (C : Ctx) :
    ∀ (moves : List PickedMove), (∀ m ∈ moves, m.legal = false) →
    ∀ (bestMove : ℕ) (alpha value : ℤ) (pv lpv : List ℕ)
      (played quiets pruned : ℕ),
      ∃ q, searchLoop P C moves
          ⟨-MATE, bestMove, alpha, value, pv, lpv, played, quiets, pruned, false⟩ =
        ⟨-MATE, bestMove, alpha, value, pv, lpv, played, q, pruned, false⟩ := by
  intro moves
  induction moves with
  | nil => exact fun _ bm a v pv lpv pl q pr => ⟨q, rfl⟩
  | cons m rest ih =>
      intro hleg bm a v pv lpv pl q pr
      have hfalse : (-MATE > MATED_IN_MAX) = False := eq_false (by decide)
      simp only [searchLoop, hfalse, hleg m (List.mem_cons_self m rest),
        Bool.false_eq_true, false_and, and_false, if_false, if_true]
      exact ih (fun x hx => hleg x (List.mem_cons_of_mem m hx)) bm a v pv lpv pl
        (if m.isQuiet then q + 1 else q) pr

/-- Claim C4: if the main move loop runs and no picked move passes the
legality test, `search` plays nothing, prunes nothing (no quiet-move or
SEE pruning can fire, and `skipQuiets` is never raised, since they all
need `best > MATED_IN_MAX`), and then returns `-MATE + height` in check
and 0 otherwise, with an empty PV and no TT store. -/
theorem claim_c4 (P : Params) (C : Ctx) (moves : List PickedMove)
    (inCheck : Bool) (oldAlpha beta eval depth height value0 : ℤ)
    (hleg : ∀ m ∈ moves, m.legal = false) :
    (searchLoop P C moves (initLoopState oldAlpha value0)).played = 0 ∧
    (searchLoop P C moves (initLoopState oldAlpha value0)).pruned = 0 ∧
    (searchLoop P C moves (initLoopState oldAlpha value0)).skipQuiets = false ∧
    searchFinish (searchLoop P C moves (initLoopState oldAlpha value0)).played
      inCheck (searchLoop P C moves (initLoopState oldAlpha value0)).best
      (searchLoop P C moves (initLoopState oldAlpha value0)).bestMove
      oldAlpha beta eval depth height
      (searchLoop P C moves (initLoopState oldAlpha value0)).pv =
      ⟨if inCheck then -MATE + height else 0, [], none⟩ := by
  obtain ⟨qf, hq⟩ :=
    searchLoop_illegal P C moves hleg 0 oldAlpha value0 [] [] 0 0 0
  rw [show initLoopState oldAlpha value0 =
      ⟨-MATE, 0, oldAlpha, value0, [], [], 0, 0, 0, false⟩ from rfl, hq]
  exact ⟨rfl, rfl, rfl, by simp [searchFinish]⟩

/-- Witness for C4: one illegal quiet move, in check at height 3. -/
theorem claim_c4_witness :
    (searchLoop P0 C0 [M0] (initLoopState 0 0)).played = 0 ∧
    searchFinish (searchLoop P0 C0 [M0] (initLoopState 0 0)).played true
      (searchLoop P0 C0 [M0] (initLoopState 0 0)).best
      (searchLoop P0 C0 [M0] (initLoopState 0 0)).bestMove 0 10 3 5 3
      (searchLoop P0 C0 [M0] (initLoopState 0 0)).pv =
      ⟨if true then -MATE + 3 else 0, [], none⟩ :=
  have h : ∀ m ∈ [M0], m.legal = false := by
    intro m hm; rw [List.mem_singleton] at hm; subst hm; rfl
  ⟨(claim_c4 P0 C0 [M0] true 0 10 3 5 3 0 h).1,
    (claim_c4 P0 C0 [M0] true 0 10 3 5 3 0 h).2.2.2⟩

/-- Claim C10: if every move other than the table move is illegal, the
exclusion loop of `moveIsSingular` never overwrites `value = -MATE`, which
cannot exceed `rBeta = max(ttValue - depth, -MATE)`, so the table move is
classified as singular. -/
theorem claim_c10 (ttMove : ℕ) (ttValue depth : ℤ) (moves : List SingMove)
    (h : ∀ m ∈ moves, m.move ≠ ttMove → m.legal = false) :
    moveIsSingular ttMove ttValue depth moves = true := by
  have hloop : ∀ (ms : List SingMove),
      (∀ m ∈ ms, m.move ≠ ttMove → m.legal = false) →
      ∀ v, v ≤ max (ttValue - depth) (-MATE) →
      singularLoop ttMove (max (ttValue - depth) (-MATE)) depth ms v ≤
        max (ttValue - depth) (-MATE) := by
    intro ms
    induction ms with
    | nil => exact fun _ v hv => hv
    | cons m rest ih =>
        intro hms v hv
        by_cases hm : m.move = ttMove
        · rw [singularLoop, if_pos hm]
          exact ih (fun x hx => hms x (List.mem_cons_of_mem m hx)) v hv
        · have hl : m.legal = false := hms m (List.mem_cons_self m rest) hm
          rw [singularLoop, if_neg hm, hl, if_pos rfl]
          exact ih (fun x hx => hms x (List.mem_cons_of_mem m hx)) v hv
  exact decide_eq_true (hloop moves h (-MATE) (le_max_right _ _))

/-- Witness for C10: the legal table move 5 plus one illegal alternative. -/
theorem claim_c10_witness :
    moveIsSingular 5 100 8
      [{ move := 5, legal := true, child := fun _ _ _ => (0, []) },
       { move := 9, legal := false, child := fun _ _ _ => (0, []) }] = true :=
  claim_c10 5 100 8 _ (by
    intro m hm hne
    rcases List.mem_cons.mp hm with h1 | h1
    · subst h1; exact absurd rfl hne
    · rw [List.mem_singleton] at h1; subst h1; rfl)

/-- Claim C6: in `qsearch`, when the node is not aborted, not drawn,
below the maximal height and the TT probe gives no cutoff, a stand-pat
value reaching beta returns `eval` at once, and otherwise delta pruning
(`bestTacticalMoveValue < alpha - eval - QFutilityMargin`, with the
raised alpha) also returns `eval`; in both cases no move is explored, as
the conclusion holds for every move list the picker could produce. -/
theorem claim_c6 (P : Params) (E : QEnv) (alpha beta height : ℤ)
    (h1 : E.abort = false) (h2 : E.drawn = false) (h3 : height < MAX_PLY)
    (h4 : qttCut E.tt alpha beta height = false) :
    (max alpha (evalOf E.tt E.evalBoard) ≥ beta →
      ∀ ms, qsearch P { E with qmoves := ms } alpha beta height =
        some ⟨evalOf E.tt E.evalBoard, [], none⟩) ∧
    (max alpha (evalOf E.tt E.evalBoard) < beta →
      E.bestTactical <
        max alpha (evalOf E.tt E.evalBoard) - evalOf E.tt E.evalBoard -
          P.QFutilityMargin →
      ∀ ms, qsearch P { E with qmoves := ms } alpha beta height =
        some ⟨evalOf E.tt E.evalBoard, [], none⟩) := by
  constructor
  · intro hsp ms
    simp only [qsearch]
    rw [if_neg (by rw [h1]; decide)]
    rw [if_neg (by rw [h2]; decide)]
    rw [if_neg (by omega)]
    rw [if_neg (by rw [h4]; decide)]
    rw [if_pos hsp]
  · intro hsp hdelta ms
    simp only [qsearch]
    rw [if_neg (by rw [h1]; decide)]
    rw [if_neg (by rw [h2]; decide)]
    rw [if_neg (by omega)]
    rw [if_neg (by rw [h4]; decide)]
    rw [if_neg (by omega)]
    rw [if_pos hdelta]

/-- Witness for C6: stand-pat cutoff at eval 5 with window `(0, 3)`. -/
theorem claim_c6_witness :
    qsearch P0 { Q0 with qmoves := [] } 0 3 0 =
      some ⟨evalOf Q0.tt Q0.evalBoard, [], none⟩ ∧
    evalOf Q0.tt Q0.evalBoard = 5 :=
  ⟨(claim_c6 P0 Q0 0 3 0 rfl rfl (by decide) rfl).1 (by decide) [],
    rfl⟩

/-- Counterexample to C7 as stated: on the bare-king board `B7` the code
returns the pawn value 100 (its scan only looks at knight through queen
and falls back to a pawn), while the spec's reading, the SEE value of the
strongest enemy piece actually present (here the king, of SEE value 0),
gives 0. -/
theorem claim_c7_counterexample :
    bestTacticalMoveValue B7 = 100 ∧ specBestTacticalMoveValue B7 = 0 ∧
    bestTacticalMoveValue B7 ≠ specBestTacticalMoveValue B7 := by
  refine ⟨by decide, by decide, by decide⟩

/-- Claim C7 (amended): `bestTacticalMoveValue` equals the SEE value of
the strongest enemy piece among knight, bishop, rook and queen present on
the board, defaulting to the pawn value when the enemy has none of those
(even a bare king), plus `value(queen) - value(pawn)` when the side to
move has a pawn on its seventh rank. -/
theorem claim_c7 (b : Board) :
    bestTacticalMoveValue b = amendedBestTacticalMoveValue b := by
  unfold bestTacticalMoveValue amendedBestTacticalMoveValue
  simp only [btmvScan]
  split_ifs <;> ring

/-- Claim C5: whenever `search` performs null-move pruning (non-PV window,
not in check, sufficient depth, eval at or above beta, non-pawn material,
no null move on the previous two plies, no TT refutation) and the reduced
null-window child search at `depth - R` with
`R = 4 + depth/6 + min(3, (eval-beta)/200)` scores at least beta, the node
returns exactly `beta` (fail-hard), not the child's value. -/
theorem claim_c5 (P : Params) (E : SEnv) (alpha beta depth height : ℤ)
    (hpv : alpha = beta - 1)
    (ha : E.abort = false)
    (_hh : 0 < height)
    (hd : E.drawn = false)
    (hm : height < MAX_PLY)
    (hdep : 0 < depth)
    (hic : E.kingAttackers = false)
    (hmd : max alpha (-MATE + height) < min beta (MATE - height - 1))
    (htt : ttCutCond E.tt false alpha beta depth height = false)
    (htb : E.tb = TBRes.FAILED)
    (hrz : ¬(depth ≤ P.RazorDepth ∧
      evalOf E.tt E.evalBoard + P.RazorMargin < alpha))
    (hbp : ¬(depth ≤ P.BetaPruningDepth ∧
      evalOf E.tt E.evalBoard - P.BetaMargin * depth > beta))
    (hnd : depth ≥ P.NullMovePruningDepth)
    (hev : evalOf E.tt E.evalBoard ≥ beta)
    (hnp : E.hasNonPawnMat = true)
    (hn1 : E.prevNull1 = false)
    (hn2 : E.prevNull2 = false)
    (httn : E.tt.isSome = false ∨ (ttBoundOf E.tt).hasUpper = false ∨
      ttValueOf E.tt height ≥ beta)
    (hnv : -(E.nullChild (-beta) (-beta + 1)
        (depth - (4 + Int.tdiv depth 6 +
          min 3 (Int.tdiv (evalOf E.tt E.evalBoard - beta) 200)))).1 ≥ beta) :
    search P E alpha beta depth height = some ⟨beta, [], none⟩ := by
  subst hpv
  have hpvf : decide (beta - 1 ≠ beta - 1) = false := by simp
  simp only [search, hpvf]
  rw [htb]
  rw [if_neg (by rintro ⟨h1, -⟩; omega)]
  rw [max_eq_right (by omega : (0 : ℤ) ≤ depth)]
  rw [if_neg (by rw [ha]; decide)]
  rw [if_neg (by rintro ⟨-, h2⟩; rw [hd] at h2; exact absurd h2 (by decide))]
  rw [if_neg (by rintro ⟨-, h2⟩; omega)]
  rw [if_neg (by rintro ⟨-, h2⟩; omega)]
  rw [if_neg (by rw [htt]; decide)]
  rw [if_neg (by simp [tbCutCond])]
  simp only [searchBody, hpvf, htb]
  rw [if_neg (by rintro ⟨-, -, h3, h4⟩; exact hrz ⟨h3, h4⟩)]
  rw [if_neg (by rintro ⟨-, -, h3, h4⟩; exact hbp ⟨h3, h4⟩)]
  rw [if_pos ⟨trivial, hic, hnd, hev, hnp, hn1, hn2, by simpa using httn⟩]
  rw [if_pos hnv]

/-- Witness for C5: with window `(9, 10)`, depth 3 and eval 15, NMP fires
and the node returns exactly beta = 10 although the child scored 50. -/
theorem claim_c5_witness :
    search P0 E5 9 10 3 2 = some ⟨10, [], none⟩ ∧
    -(E5.nullChild (-10) (-10 + 1)
        (3 - (4 + Int.tdiv 3 6 +
          min 3 (Int.tdiv (evalOf E5.tt E5.evalBoard - 10) 200)))).1 ≥ 10 :=
  ⟨claim_c5 P0 E5 9 10 3 2 rfl rfl (by decide) rfl (by decide) (by decide)
      rfl (by decide) rfl rfl (by decide) (by decide) (by decide) (by decide)
      rfl rfl rfl (Or.inl rfl) (by decide),
    by decide⟩

/-- Invariant of the `qsearch` move loop: the running alpha never drops
below the entry alpha, and a non-empty PV forces `best` above the entry
alpha. -/
theorem qsearchLoop_inv (beta alpha0 : ℤ) :
    ∀ (ms : List QMove) (s : QLoopState),
    alpha0 ≤ s.alpha → (s.pv ≠ [] → s.best > alpha0) →
    alpha0 ≤ (qsearchLoop beta ms s).alpha ∧
    ((qsearchLoop beta ms s).pv ≠ [] → (qsearchLoop beta ms s).best > alpha0) := by
  intro ms
  induction ms with
  | nil => exact fun s h1 h2 => ⟨h1, h2⟩
  | cons m rest ih =>
      intro s h1 h2
      simp only [qsearchLoop]
      by_cases hleg : m.legal = false
      · rw [if_pos hleg]; exact ih s h1 h2
      · rw [if_neg hleg]
        have hinv :
            alpha0 ≤ (if -(m.child (-beta) (-s.alpha)).1 > s.best then
                if -(m.child (-beta) (-s.alpha)).1 > s.alpha then
                  (⟨-(m.child (-beta) (-s.alpha)).1, -(m.child (-beta) (-s.alpha)).1,
                    m.move :: (m.child (-beta) (-s.alpha)).2⟩ : QLoopState)
                else { s with best := -(m.child (-beta) (-s.alpha)).1 }
              else s).alpha ∧
            ((if -(m.child (-beta) (-s.alpha)).1 > s.best then
                if -(m.child (-beta) (-s.alpha)).1 > s.alpha then
                  (⟨-(m.child (-beta) (-s.alpha)).1, -(m.child (-beta) (-s.alpha)).1,
                    m.move :: (m.child (-beta) (-s.alpha)).2⟩ : QLoopState)
                else { s with best := -(m.child (-beta) (-s.alpha)).1 }
              else s).pv ≠ [] →
              (if -(m.child (-beta) (-s.alpha)).1 > s.best then
                if -(m.child (-beta) (-s.alpha)).1 > s.alpha then
                  (⟨-(m.child (-beta) (-s.alpha)).1, -(m.child (-beta) (-s.alpha)).1,
                    m.move :: (m.child (-beta) (-s.alpha)).2⟩ : QLoopState)
                else { s with best := -(m.child (-beta) (-s.alpha)).1 }
              else s).best > alpha0) := by
          by_cases hb : -(m.child (-beta) (-s.alpha)).1 > s.best
          · by_cases hva : -(m.child (-beta) (-s.alpha)).1 > s.alpha
            · rw [if_pos hb, if_pos hva]
              dsimp only
              exact ⟨by omega, fun _ => by omega⟩
            · rw [if_pos hb, if_neg hva]
              dsimp only
              refine ⟨h1, fun hp => ?_⟩
              have := h2 hp
              omega
          · rw [if_neg hb]; exact ⟨h1, h2⟩
        by_cases hbr :
            (if -(m.child (-beta) (-s.alpha)).1 > s.best then
                if -(m.child (-beta) (-s.alpha)).1 > s.alpha then
                  (⟨-(m.child (-beta) (-s.alpha)).1, -(m.child (-beta) (-s.alpha)).1,
                    m.move :: (m.child (-beta) (-s.alpha)).2⟩ : QLoopState)
                else { s with best := -(m.child (-beta) (-s.alpha)).1 }
              else s).alpha ≥ beta
        · rw [if_pos hbr]; exact hinv
        · rw [if_neg hbr]; exact ih _ hinv.1 hinv.2

/-- Invariant of the main move loop of `search`: the running alpha never
drops below the entry alpha, a non-empty PV forces `best` above the entry
alpha, and the PV stays empty while nothing has been played. -/
theorem searchLoop_inv (P : Params) (C : Ctx) (alpha0 : ℤ) :
    ∀ (ms : List PickedMove) (s : LoopState),
    alpha0 ≤ s.alpha → (s.pv ≠ [] → s.best > alpha0) →
    (s.played = 0 → s.pv = []) →
    alpha0 ≤ (searchLoop P C ms s).alpha ∧
    ((searchLoop P C ms s).pv ≠ [] → (searchLoop P C ms s).best > alpha0) ∧
    ((searchLoop P C ms s).played = 0 → (searchLoop P C ms s).pv = []) := by
  intro ms
  induction ms with
  | nil => exact fun s h1 h2 h3 => ⟨h1, h2, h3⟩
  | cons m rest ih =>
      intro s h1 h2 h3
      simp only [searchLoop]
      by_cases h4 : s.skipQuiets = true ∧ m.pickWhenSkipQuiets = false
      · rw [if_pos h4]; exact ih s h1 h2 h3
      rw [if_neg h4]
      by_cases h5 : m.isQuiet = true ∧ s.best > MATED_IN_MAX ∧
          C.depth ≤ P.CounterMovePruningDepth C.improving ∧
          m.cmhist < P.CounterMoveHistoryLimit C.improving
      · rw [if_pos h5]; exact ih _ h1 h2 h3
      rw [if_neg h5]
      by_cases h6 : m.isQuiet = true ∧ s.best > MATED_IN_MAX ∧
          C.depth ≤ P.FollowUpMovePruningDepth C.improving ∧
          m.fmhist < P.FollowUpMoveHistoryLimit C.improving
      · rw [if_pos h6]; exact ih _ h1 h2 h3
      rw [if_neg h6]
      by_cases h7 : s.best > MATED_IN_MAX ∧ C.depth ≤ P.SEEPruningDepth ∧
          m.stageGtGoodNoisy = true ∧
          m.see (if m.isQuiet then C.seeMarginQ else C.seeMarginN) = false
      · rw [if_pos h7]; exact ih _ h1 h2 h3
      rw [if_neg h7]
      by_cases h8 : m.legal = false
      · rw [if_pos h8]; exact ih _ h1 h2 h3
      rw [if_neg h8]
      by_cases h9 : (researchLadder C m s).1 > s.best
      · rw [if_pos h9]
        by_cases h10 : (researchLadder C m s).1 > s.alpha
        · rw [if_pos h10]
          by_cases h11 : (researchLadder C m s).1 ≥ C.beta
          · rw [if_pos h11]
            exact ⟨by dsimp only; omega, fun _ => by dsimp only; omega,
              fun hx => absurd hx (by dsimp only; omega)⟩
          · rw [if_neg h11]
            exact ih _ (by dsimp only; omega) (fun _ => by dsimp only; omega)
              (fun hx => absurd hx (by dsimp only; omega))
        · rw [if_neg h10]
          exact ih _ h1 (fun hp => by dsimp only; have := h2 hp; omega)
            (fun hx => absurd hx (by dsimp only; omega))
      · rw [if_neg h9]
        exact ih _ h1 h2 (fun hx => absurd hx (by dsimp only; omega))

/-- PV soundness of `qsearch`: a normal return with a non-empty PV has a
score strictly above the entry alpha. -/
theorem qsearch_pv (P : Params) (E : QEnv) (alpha beta height : ℤ) (r : SOut)
    (h : qsearch P E alpha beta height = some r) (hp : r.pv ≠ []) :
    alpha < r.value := by
  simp only [qsearch] at h
  repeat' split at h
  all_goals
    first
      | exact Option.noConfusion h
      | (simp only [Option.some.injEq] at h
         subst h
         exact absurd rfl hp)
      | (simp only [Option.some.injEq] at h
         subst h
         exact (qsearchLoop_inv beta alpha E.qmoves
           ⟨evalOf E.tt E.evalBoard, max alpha (evalOf E.tt E.evalBoard), []⟩
           (le_max_left _ _) (fun hc => absurd rfl hc)).2 hp)

/-- PV soundness of the move loop plus the tail of `search`: a result of
`searchMain` with a non-empty PV has a score strictly above the entry
alpha. -/
theorem searchMain_pv (P : Params) (C : Ctx) (ms : List PickedMove)
    (inCheck : Bool) (alpha beta eval depth height v0 : ℤ) (r : SOut)
    (h : searchMain P C ms inCheck alpha beta eval depth height v0 = r)
    (hp : r.pv ≠ []) : alpha < r.value := by
  have inv := searchLoop_inv P C alpha ms (initLoopState alpha v0)
    (le_refl alpha) (fun hc => absurd rfl hc) (fun _ => rfl)
  subst h
  unfold searchMain at hp ⊢
  by_cases hpl : (searchLoop P C ms (initLoopState alpha v0)).played = 0
  · rw [searchFinish, if_pos hpl] at hp ⊢
    exact absurd (inv.2.2 hpl) hp
  · rw [searchFinish, if_neg hpl] at hp ⊢
    exact inv.2.1 hp

/-- PV soundness of the ProbCut block: its cutoff paths write no PV, and
the fall-through continues into `searchMain`. -/
theorem searchPC_pv (P : Params) (E : SEnv)
    (alpha beta eval depth height v2 : ℤ) (r : SOut)
    (h : searchPC P E alpha beta eval depth height v2 = some r)
    (hp : r.pv ≠ []) : alpha < r.value := by
  simp only [searchPC] at h
  split at h
  · split at h
    · simp only [Option.some.injEq] at h
      subst h
      exact absurd rfl hp
    · simp only [Option.some.injEq] at h
      exact searchMain_pv _ _ _ _ _ _ _ _ _ _ r h hp
  · simp only [Option.some.injEq] at h
    exact searchMain_pv _ _ _ _ _ _ _ _ _ _ r h hp

/-- PV soundness of the body of `search` from razoring onwards. -/
theorem searchBody_pv (P : Params) (E : SEnv) (alpha beta depth height : ℤ)
    (r : SOut) (h : searchBody P E alpha beta depth height = some r)
    (hp : r.pv ≠ []) : alpha < r.value := by
  simp only [searchBody] at h
  split_ifs at h
  all_goals
    first
      | exact qsearch_pv P E.q alpha beta height r h hp
      | (simp only [Option.some.injEq] at h
         subst h
         exact absurd rfl hp)
      | exact searchPC_pv _ _ _ _ _ _ _ _ r h hp

/-- PV soundness of `search`: a normal return with a non-empty PV has a
score strictly above the entry alpha. -/
theorem search_pv (P : Params) (E : SEnv) (alpha beta depth height : ℤ)
    (r : SOut) (h : search P E alpha beta depth height = some r)
    (hp : r.pv ≠ []) : alpha < r.value := by
  simp only [search] at h
  split_ifs at h
  all_goals
    first
      | exact Option.noConfusion h
      | exact qsearch_pv P E.q alpha beta height r h hp
      | (simp only [Option.some.injEq] at h
         subst h
         exact absurd rfl hp)
      | exact searchBody_pv _ _ _ _ _ _ r h hp

/-- Claim C8: for every normally returning call of `search` and of
`qsearch`, the output PV is non-empty only when the returned score is
strictly greater than the alpha passed in at entry. -/
theorem claim_c8 (P : Params) :
    (∀ (E : QEnv) (alpha beta height : ℤ) (r : SOut),
      qsearch P E alpha beta height = some r → r.pv ≠ [] → alpha < r.value) ∧
    (∀ (E : SEnv) (alpha beta depth height : ℤ) (r : SOut),
      search P E alpha beta depth height = some r → r.pv ≠ [] →
        alpha < r.value) :=
  ⟨fun E a b ht r heq hp => qsearch_pv P E a b ht r heq hp,
   fun E a b d ht r heq hp => search_pv P E a b d ht r heq hp⟩

/-- Witness for C8 on a concrete `qsearch` run that produces the PV `[7]`
with score 50 against entry alpha 0. -/
theorem claim_c8_witness :
    qsearch P0 Q0 0 100 0 = some ⟨50, [7], none⟩ ∧ (0 : ℤ) < 50 :=
  ⟨rfl, (claim_c8 P0).1 Q0 0 100 0 ⟨50, [7], none⟩ rfl (by decide)⟩

/-- Monotonicity of the SEE exchange loop in the running balance.  The
attacker sequence is independent of the balance, so two runs from the
same `(colour, occupied, attackers)` state with ordered negative balances
can only diverge when the larger balance breaks first, and that break
always favours the capturing side; king captures always break (the king's
value is zero), so the legality caveat fires identically in both runs. -/
theorem seeLoop_mono (b : Board) (env : SeeEnv) (bishops rooks : ℕ) :
    ∀ (fuel : ℕ) (c : Bool) (occ att : ℕ) (b1 b2 : ℤ),
      b1 ≤ b2 → b1 < 0 → b2 < 0 →
      (seeLoop b env bishops rooks fuel b1 c occ att = c →
        seeLoop b env bishops rooks fuel b2 c occ att = c) ∧
      (seeLoop b env bishops rooks fuel b2 c occ att = !c →
        seeLoop b env bishops rooks fuel b1 c occ att = !c) := by
  intro fuel
  induction fuel with
  | zero => exact fun c occ att b1 b2 _ _ _ => ⟨fun _ => rfl, fun h => h⟩
  | succ n ih =>
      intro c occ att b1 b2 hle h1 h2
      simp only [seeLoop]
      by_cases hma : att &&& b.colours c = 0
      · rw [if_pos hma, if_pos hma]
        exact ⟨fun h => h, fun h => h⟩
      · rw [if_neg hma, if_neg hma]
        set V := SEEPieceValues (leastAttacker b (att &&& b.colours c)) with hV
        by_cases hb1 : -b1 - 1 - V ≥ 0
        · by_cases hb2 : -b2 - 1 - V ≥ 0
          · rw [if_pos hb1, if_pos hb2]
            exact ⟨fun h => h, fun h => h⟩
          · rw [if_pos hb1, if_neg hb2]
            have hnk : ¬(leastAttacker b (att &&& b.colours c) = KING) := by
              intro hkk
              have hVk : V = 0 := by rw [hV, hkk]; decide
              omega
            rw [if_neg (fun hc => hnk hc.1)]
            constructor
            · intro h
              exact absurd h (by cases c <;> decide)
            · exact fun _ => rfl
        · have hb2 : ¬(-b2 - 1 - V ≥ 0) := fun hx => hb1 (by omega)
          rw [if_neg hb1, if_neg hb2]
          constructor
          · intro h
            have key := (ih (!c)
              (seeNextState b env bishops rooks occ att c).1
              (seeNextState b env bishops rooks occ att c).2
              (-b2 - 1 - V) (-b1 - 1 - V)
              (by omega) (by omega) (by omega)).2
            rw [Bool.not_not] at key
            exact key h
          · intro h
            exact (ih (!c)
              (seeNextState b env bishops rooks occ att c).1
              (seeNextState b env bishops rooks occ att c).2
              (-b2 - 1 - V) (-b1 - 1 - V)
              (by omega) (by omega) (by omega)).1 h

/-- Claim C9: `staticExchangeEvaluation` is antitone in its threshold: if
the exchange clears the larger threshold `t2`, it clears every smaller
threshold `t1` as well. -/
theorem claim_c9 (b : Board) (env : SeeEnv) (m : SeeMove) (t1 t2 : ℤ)
    (hle : t1 ≤ t2)
    (h : staticExchangeEvaluation b env m t2 = true) :
    staticExchangeEvaluation b env m t1 = true := by
  unfold staticExchangeEvaluation at h ⊢
  set V0 := SEEPieceValues
    (if m.type ≠ PROMOTION_MOVE then b.squares m.fromSq else m.promo) with hV0
  by_cases hb0 : thisTacticalMoveValue b m - t2 < 0
  · rw [if_pos hb0] at h
    exact absurd h (by decide)
  · rw [if_neg hb0] at h
    rw [if_neg (by omega : ¬(thisTacticalMoveValue b m - t1 < 0))]
    by_cases hw1 : thisTacticalMoveValue b m - t1 - V0 ≥ 0
    · rw [if_pos hw1]
    · have hw2 : ¬(thisTacticalMoveValue b m - t2 - V0 ≥ 0) := by omega
      rw [if_neg hw1]
      rw [if_neg hw2] at h
      rw [decide_eq_true_eq] at h ⊢
      have hbne : ∀ x y : Bool, x ≠ y → y = !x := by decide
      have hres := hbne _ _ h
      have hmono := (seeLoop_mono b env
        (b.pieces BISHOP ||| b.pieces QUEEN) (b.pieces ROOK ||| b.pieces QUEEN)
        _ (!b.turn) _ _
        (thisTacticalMoveValue b m - t2 - V0) (thisTacticalMoveValue b m - t1 - V0)
        (by omega) (by omega) (by omega)).1 hres
      rw [hmono]
      cases b.turn <;> decide

/-- Witness for C9: a pawn capturing an undefended queen clears both the
threshold 5 and the smaller threshold 0. -/
theorem claim_c9_witness :
    staticExchangeEvaluation
      { turn := false,
        pieces := fun p => if p = PAWN then 1 else if p = QUEEN then 1 <<< 8 else 0,
        colours := fun c => if c then 1 <<< 8 else 1,
        squares := fun sq => if sq = 0 then PAWN else if sq = 8 then QUEEN else 6,
        epSquare := 0 }
      { allAtt := fun _ => 0, bishopAtt := fun _ => 0, rookAtt := fun _ => 0 }
      { fromSq := 0, toSq := 8, type := 0, promo := 0 } 0 = true :=
  claim_c9 _ _ _ 0 5 (by decide) (by decide)
